import Mathlib

/-!
# Verification of the glsvg SVG document model (`src/glsvg/svg.py`)

Shallow embedding of the pure logic of `glsvg/svg.py`:

* `SVGConfig` and its constructor / `super_detailed` method;
* the stencil-mask allocator `SVG._next_stencil_mask` as a state-transition
  function, together with a runner that iterates it;
* the width/height computation of `SVG._parse_doc` (attribute strings,
  `cm` neutralization, `viewBox` precedence);
* the element-parsing loop of `SVG._parse_doc` / `SVG._parse_element` with
  its exception propagation, over an abstract element tree;
* the anchor setters/getters (`anchor_x` / `anchor_y` properties);
* path registration and `get_path_ids` / `get_path_by_id`;
* the main render pass filter of `SVG.render`.

Numeric attribute values are modelled as `Rat` (the Python code manipulates
exact decimal literals in every behaviour proved here).  OpenGL calls
(`glClear`, `glStencilMask`, …) are modelled as events in the return value
where the claims mention them, and dropped otherwise.
-/

namespace Glsvg

/-! ## Definitions -/

/-- Modelled from the spec: the module `svg_constants` is not under `src/`;
the docstring of `SVG.__init__` gives 10 as the default for the number of
Bezier subdivision points, and no claim depends on the exact value. -/
def BEZIER_POINTS : Nat := 10

/-- Modelled from the spec: the module `svg_constants` is not under `src/`;
the docstring of `SVG.__init__` gives 10 as the default for the number of
circle subdivision points, and no claim depends on the exact value. -/
def CIRCLE_POINTS : Nat := 10

/-- Modelled from the spec: the module `svg_constants` is not under `src/`;
the merge tolerance default.  No claim depends on the exact value. -/
def TOLERANCE : Rat := 1 / 1000

/-- Configuration for how to render SVG objects (`SVGConfig` in `svg.py`). -/
structure SVGConfig where
  stencil_bits : Nat
  has_framebuffer_objects : Bool
  allow_stencil : Bool
  bezier_points : Nat
  circle_points : Nat
  tolerance : Rat
deriving Repr, DecidableEq

/-- `SVGConfig.__init__`.  The probed value `glGetInteger(GL_STENCIL_BITS)`
is an environment input and is passed as the argument `glStencilBits`. -/
def SVGConfig.init (glStencilBits : Nat) : SVGConfig where
  stencil_bits := glStencilBits
  has_framebuffer_objects := true
  allow_stencil := glStencilBits > 0
  bezier_points := BEZIER_POINTS
  circle_points := CIRCLE_POINTS
  tolerance := TOLERANCE

/-- `SVGConfig.super_detailed`: builds a *fresh* `SVGConfig()` (probing the
stencil bits again, argument `glStencilBits`), multiplies its subdivision
counts by 10 and divides its tolerance by 100.  Note that the Python method
never reads `self`, which is why the receiver `_c` is unused. -/
def SVGConfig.super_detailed (_c : SVGConfig) (glStencilBits : Nat) : SVGConfig :=
  let cfg := SVGConfig.init glStencilBits
  { cfg with
    bezier_points := cfg.bezier_points * 10
    circle_points := cfg.circle_points * 10
    tolerance := cfg.tolerance / 100 }

/-- One call of `SVG._next_stencil_mask`: given the stencil bit depth and the
current value of `self._stencil_mask`, returns the new counter value (which is
also the value returned to the caller) and whether the stencil buffer was
cleared (`glStencilMask(0xFF); glClear(GL_STENCIL_BUFFER_BIT)`). -/
def nextStencilMask (bits : Nat) (mask : Nat) : Nat × Bool :=
  let m := mask + 1
  if m > 2 ^ bits - 1 then (1, true) else (m, false)

/-- Iterate `SVG._next_stencil_mask` `n` times from counter state `s`,
recording for each call the returned mask id and whether that call cleared
the stencil buffer. -/
def runMasks (bits : Nat) : Nat → Nat → List (Nat × Bool)
  | 0, _ => []
  | n + 1, s =>
    let r := nextStencilMask bits s
    r :: runMasks bits n r.1

/-- The counter state after `n` calls of `SVG._next_stencil_mask` from state `s`. -/
def maskState (bits : Nat) : Nat → Nat → Nat
  | 0, s => s
  | n + 1, s => maskState bits n (nextStencilMask bits s).1

/-- The fields of an `SVGPath` object (class `SVGPath` lives in
`svg_path.py`, outside `src/`) that `svg.py` itself reads: the id under
which it is registered and the two pattern flags consulted by
`SVG.render`. -/
structure SVGPathM where
  path_id : String
  is_pattern : Bool
  is_pattern_part : Bool
deriving Repr, DecidableEq

/-- The loop body of `SVG.render` (`svg.py` lines 259-261): walk
`self._paths` in order and render exactly the paths whose two pattern flags
are both false.  The returned list is the sequence of paths on which
`svg_path.render()` is invoked, in invocation order. -/
def render : List SVGPathM → List SVGPathM
  | [] => []
  | p :: ps =>
    if !p.is_pattern && !p.is_pattern_part then p :: render ps
    else render ps

/-- A Python value that can be stored in the anchor attributes: a number or
a string (the symbolic keywords are strings). -/
inductive PyVal where
  | num (v : Rat)
  | str (s : String)
deriving Repr, DecidableEq

/-- The attributes of an `SVG` object touched by the anchor properties:
document dimensions, the stored anchor values `_anchor_x`/`_anchor_y` and
the resolved offsets `_a_x`/`_a_y`. -/
structure AnchorState where
  width : Rat
  height : Rat
  _anchor_x : PyVal
  _anchor_y : PyVal
  _a_x : PyVal
  _a_y : PyVal
deriving Repr, DecidableEq

/-- `SVG._set_anchor_x`. -/
def _set_anchor_x (doc : AnchorState) (v : PyVal) : AnchorState :=
  let doc := { doc with _anchor_x := v }
  if doc._anchor_x = .str "left" then { doc with _a_x := .num 0 }
  else if doc._anchor_x = .str "center" then { doc with _a_x := .num (doc.width * (1 / 2)) }
  else if doc._anchor_x = .str "right" then { doc with _a_x := .num doc.width }
  else { doc with _a_x := doc._anchor_x }

/-- `SVG._get_anchor_x`. -/
def _get_anchor_x (doc : AnchorState) : PyVal := doc._anchor_x

/-- `SVG._get_anchor_y`. -/
def _get_anchor_y (doc : AnchorState) : PyVal := doc._anchor_y

/-- `SVG._set_anchor_y`.  Its fallback branch reads the `anchor_y` property
(`self._a_y = self.anchor_y`), i.e. the getter of the value stored just
before. -/
def _set_anchor_y (doc : AnchorState) (v : PyVal) : AnchorState :=
  let doc := { doc with _anchor_y := v }
  if doc._anchor_y = .str "bottom" then { doc with _a_y := .num 0 }
  else if doc._anchor_y = .str "center" then { doc with _a_y := .num (doc.height * (1 / 2)) }
  else if doc._anchor_y = .str "top" then { doc with _a_y := .num doc.height }
  else { doc with _a_y := _get_anchor_y doc }

/-- Assignment `d[k] = v` on a Python dict, modelled on an association list
kept in insertion order: an existing key is overwritten in place, a new key
is appended. -/
def dictSet (d : List (String × SVGPathM)) (k : String) (v : SVGPathM) :
    List (String × SVGPathM) :=
  if d.any (fun kv => kv.1 = k) then
    d.map (fun kv => if kv.1 = k then (k, v) else kv)
  else d ++ [(k, v)]

/-- Lookup `d[k]` on the association list modelling a Python dict. -/
def dictGet (d : List (String × SVGPathM)) (k : String) : Option SVGPathM :=
  match d with
  | [] => none
  | kv :: rest => if kv.1 = k then some kv.2 else dictGet rest k

/-- The registration state of an `SVG` object: the ordered path list
`self._paths` and the dict `self.path_lookup`. -/
structure DocState where
  _paths : List SVGPathM
  path_lookup : List (String × SVGPathM)
deriving Repr, DecidableEq

/-- `SVG.get_path_ids` (`self.path_lookup.keys()`). -/
def get_path_ids (st : DocState) : List String := st.path_lookup.map Prod.fst

/-- `SVG.get_path_by_id`: `self.path_lookup[id]`; a missing key raises a
`KeyError`, modelled as `Except.error`. -/
def get_path_by_id (st : DocState) (id : String) : Except String SVGPathM :=
  match dictGet st.path_lookup id with
  | some p => .ok p
  | none => .error ("KeyError: " ++ id)

/-- The registration step of `SVG._parse_element` for a path-tag element:
`self._paths.append(path); self.path_lookup[scope.path_id] = path`.  The
flags of the freshly constructed `SVGPath` are modelled as false (their
actual values come from `svg_path.py`, outside `src/`; no claim here
depends on them). -/
def register (st : DocState) (pid : String) : DocState :=
  { st with
    _paths := st._paths ++ [⟨pid, false, false⟩]
    path_lookup := dictSet st.path_lookup pid ⟨pid, false, false⟩ }

/-- `str.endswith` on the character lists of the two strings. -/
def strEndsWith (s suf : String) : Bool := List.isSuffixOf suf.toList s.toList

/-- `SVG._is_path_tag`. -/
def isPathTag (tag : String) : Bool :=
  strEndsWith tag "path"
    || strEndsWith tag "rect"
    || strEndsWith tag "polyline" || strEndsWith tag "polygon"
    || strEndsWith tag "line"
    || strEndsWith tag "circle" || strEndsWith tag "ellipse"

mutual

/-- An abstract element of the document tree handed to `SVG._parse_element`:
its tag, the path id its scope would carry (`SvgElementScope` lives outside
`src/`), whether constructing its scope/`SVGPath` raises an exception (an
oracle for the behaviour of the external collaborators on this element),
and its child elements. -/
inductive PElem where
  | node (tag : String) (path_id : String) (fails : Bool) (children : PElemList)
deriving Repr, DecidableEq

/-- A list of abstract elements (mutual with `PElem` so that all functions
below are structurally recursive). -/
inductive PElemList where
  | nil
  | cons (head : PElem) (tail : PElemList)
deriving Repr, DecidableEq

end

mutual

/-- Whether parsing this element raises: its own construction fails, or
parsing some descendant fails (child failures are re-raised by the
`except` clause of `SVG._parse_element`). -/
def elemFails : PElem → Bool
  | .node _ _ fails children => fails || elemsFail children

/-- Whether parsing some element of the list raises. -/
def elemsFail : PElemList → Bool
  | .nil => false
  | .cons c cs => elemFails c || elemsFail cs

end

mutual

/-- `SVG._parse_element`: construct the scope and (for path tags) the
`SVGPath` — modelled by the `fails` oracle and `register` — then loop over
the children; a child exception is printed and re-raised (`svg.py` lines
314-319), i.e. propagated. -/
def parseElement (st : DocState) : PElem → Except String DocState
  | .node tag pid fails children =>
    if fails then .error ("Exception while parsing element " ++ pid)
    else parseChildren (if isPathTag tag then register st pid else st) children

/-- The `for c in e.getchildren(): try: … except: print; raise` loop shared
by `SVG._parse_element` (lines 314-319) and `SVG._parse_doc` (lines
285-290): each element is parsed in turn and the first exception is
re-raised, aborting the loop. -/
def parseChildren (st : DocState) : PElemList → Except String DocState
  | .nil => .ok st
  | .cons c cs =>
    match parseElement st c with
    | .ok st2 => parseChildren st2 cs
    | .error msg => .error msg

end

/-- The element loop of `SVG._parse_doc`: starting from the empty
registration state (`self._paths = []`, `self.path_lookup` still empty from
`__init__`), parse every child of the root. -/
def parseDocElems (es : PElemList) : Except String DocState :=
  parseChildren ⟨[], []⟩ es

/-- Python `'cm' in s` on the character list of `s`. -/
def containsCm : List Char → Bool
  | [] => false
  | 'c' :: 'm' :: _ => true
  | _ :: rest => containsCm rest

/-- Python `s.replace('cm', '0')` on the character list of `s`:
left-to-right, non-overlapping replacement of every occurrence. -/
def pyReplaceCm : List Char → List Char
  | [] => []
  | 'c' :: 'm' :: rest => '0' :: pyReplaceCm rest
  | c :: rest => c :: pyReplaceCm rest

/-- The `cm` neutralization of `SVG._parse_doc` (lines 271-274): if the
measurement string contains `cm`, every occurrence is replaced by the
character `0`. -/
def neutralizeCm (s : String) : String :=
  if containsCm s.toList then String.mk (pyReplaceCm s.toList) else s

/-- Accumulate a digit string into a natural number. -/
def parseDigits (cs : List Char) : Nat :=
  cs.foldl (fun acc c => acc * 10 + (c.toNat - '0'.toNat)) 0

/-- Value of an optionally signed decimal numeral, integer and fractional
part. -/
def parseUnsigned (cs : List Char) : Rat :=
  let ip := cs.takeWhile Char.isDigit
  let rest := cs.dropWhile Char.isDigit
  match rest with
  | '.' :: fs =>
    let fp := fs.takeWhile Char.isDigit
    (parseDigits ip : Rat) + (parseDigits fp : Rat) / (10 : Rat) ^ fp.length
  | _ => (parseDigits ip : Rat)

/-- Modelled from the spec: `parser_utils.parse_float` is not under `src/`;
the spec treats string parsing as an external collaborator, so this parses
an optionally signed decimal numeral exactly. -/
def parseFloat (s : String) : Rat :=
  if s.toList.head? = some '-' then -(parseUnsigned s.toList.tail)
  else parseUnsigned s.toList

/-- Helper for `parseList`: split on spaces and commas, dropping empty
tokens; `acc` holds the characters of the current token, reversed. -/
def parseListAux : List Char → List Char → List String
  | [], acc => if acc.isEmpty then [] else [String.mk acc.reverse]
  | c :: cs, acc =>
    if c = ' ' || c = ',' then
      (if acc.isEmpty then [] else [String.mk acc.reverse]) ++ parseListAux cs []
    else parseListAux cs (c :: acc)

/-- Modelled from the spec: `parser_utils.parse_list` is not under `src/`;
the spec treats it as the external collaborator that splits a
whitespace/comma separated value list such as a `viewBox` attribute into
its tokens. -/
def parseList (s : String) : List String := parseListAux s.toList []

/-- The root element's attributes read by `SVG._parse_doc`
(`self.tree._root.get(...)`); a missing attribute is `none`. -/
structure RootAttrs where
  width : Option String
  height : Option String
  viewBox : Option String
deriving Repr, DecidableEq

/-- The width/height computation of `SVG._parse_doc` (lines 266-282):
attribute strings default to `'0'`, `cm` is neutralized, both are parsed
with `parse_float`; if a `viewBox` attribute is present and truthy (a
non-empty string), it is split into exactly four numbers `x y w h` (any
other token count raises, modelled as `Except.error`) and `w`/`h` override
the width/height. -/
def parseDocDims (root : RootAttrs) : Except String (Rat × Rat) :=
  let wm := neutralizeCm (root.width.getD "0")
  let hm := neutralizeCm (root.height.getD "0")
  let width := parseFloat wm
  let height := parseFloat hm
  match root.viewBox with
  | none => .ok (width, height)
  | some vb =>
    if vb = "" then .ok (width, height)
    else
      match (parseList vb).map parseFloat with
      | [_, _, w, h] => .ok (w, h)
      | _ => .error "ValueError: viewBox does not unpack into four values"

/-- A sample document state with one registered path, used by witnesses. -/
def samplePath : SVGPathM := ⟨"a", false, false⟩

/-- A sample registration state holding exactly `samplePath` under id `a`. -/
def sampleDocState : DocState := ⟨[samplePath], [("a", samplePath)]⟩

/-- A sample anchor state (document of width 100 and height 50, all anchors
zero), used by witnesses. -/
def sampleAnchorState : AnchorState :=
  ⟨100, 50, .num 0, .num 0, .num 0, .num 0⟩

/-! ## Theorems -/

theorem runMasks_append (bits m n s : Nat) :
    runMasks bits (m + n) s =
      runMasks bits m s ++ runMasks bits n (maskState bits m s) := by
  induction m generalizing s with
  | zero => simp [runMasks, maskState]
  | succ m ih =>
    rw [Nat.succ_add]
    simp only [runMasks, maskState, List.cons_append, ih]

theorem runMasks_ramp (bits : Nat) :
    ∀ k s, s + k ≤ 2 ^ bits - 1 →
      runMasks bits k s = (List.range' (s + 1) k).map (fun v => (v, false)) := by
  intro k
  induction k with
  | zero => intro s _; simp [runMasks]
  | succ k ih =>
    intro s hs
    have h1 : s + 1 ≤ 2 ^ bits - 1 := by omega
    have hnot : ¬ (s + 1 > 2 ^ bits - 1) := by omega
    simp only [runMasks, nextStencilMask, hnot, if_false]
    rw [List.range'_succ, List.map_cons]
    exact congrArg _ (ih (s + 1) (by omega))

theorem maskState_ramp (bits : Nat) :
    ∀ k s, s + k ≤ 2 ^ bits - 1 → maskState bits k s = s + k := by
  intro k
  induction k with
  | zero => intro s _; simp [maskState]
  | succ k ih =>
    intro s hs
    have hnot : ¬ (s + 1 > 2 ^ bits - 1) := by omega
    simp only [maskState, nextStencilMask, hnot, if_false]
    rw [ih (s + 1) (by omega)]
    omega

theorem nextStencilMask_le (bits s : Nat) :
    (nextStencilMask bits s).1 ≤ max 1 (2 ^ bits - 1) := by
  simp only [nextStencilMask]
  split
  · exact Nat.le_max_left _ _
  · exact le_trans (by omega) (Nat.le_max_right _ _)

theorem nextStencilMask_pos (bits s : Nat) : 1 ≤ (nextStencilMask bits s).1 := by
  simp only [nextStencilMask]
  split <;> omega

theorem runMasks_mem_bound (bits : Nat) :
    ∀ n s, ∀ x ∈ runMasks bits n s, 1 ≤ x.1 ∧ x.1 ≤ max 1 (2 ^ bits - 1) := by
  intro n
  induction n with
  | zero => intro s x hx; simp [runMasks] at hx
  | succ n ih =>
    intro s x hx
    simp only [runMasks, List.mem_cons] at hx
    rcases hx with rfl | hx
    · exact ⟨nextStencilMask_pos bits s, nextStencilMask_le bits s⟩
    · exact ih _ x hx

theorem runMasks_zero_bits (n : Nat) :
    ∀ s, runMasks 0 n s = List.replicate n (1, true) := by
  induction n with
  | zero => intro s; simp [runMasks]
  | succ n ih =>
    intro s
    have : (nextStencilMask 0 s) = (1, true) := by
      simp [nextStencilMask]
    simp only [runMasks, this, ih, List.replicate_succ]

theorem maskState_add (bits m n : Nat) :
    ∀ s, maskState bits (m + n) s = maskState bits n (maskState bits m s) := by
  induction m with
  | zero => intro s; simp [maskState]
  | succ m ih =>
    intro s
    rw [Nat.succ_add]
    simp only [maskState]
    exact ih _

theorem runMasks_wrap_decomp (b : Nat) (hb : 0 < b) :
    runMasks b (2 ^ b) 0 =
      (List.range' 1 (2 ^ b - 1)).map (fun v => (v, false)) ++ [(1, true)] := by
  have hpow : 1 < 2 ^ b := Nat.one_lt_two_pow_iff.mpr (by omega)
  have he : 2 ^ b = (2 ^ b - 1) + 1 := by omega
  rw [he, runMasks_append,
    runMasks_ramp b (2 ^ b - 1) 0 (by omega),
    maskState_ramp b (2 ^ b - 1) 0 (by omega)]
  have hnext : nextStencilMask b (2 ^ b - 1) = (1, true) := by
    simp [nextStencilMask]
  simp [runMasks, hnext]

/-- C1: with stencil bit depth `b > 0` and the mask counter starting at 0
(as `SVG.__init__` sets it), every mask id returned by
`SVG._next_stencil_mask` lies in `[1, 2^b - 1]` (over any number of calls,
in particular over `2^b` of them), and a run of `2^b` consecutive calls
contains exactly one call that wraps: the counter resets to 1 and the
stencil buffer is cleared exactly once in that run. -/
theorem next_stencil_mask_C1 (b : Nat) (hb : 0 < b) :
    (∀ n, ∀ x ∈ runMasks b n 0, 1 ≤ x.1 ∧ x.1 ≤ 2 ^ b - 1) ∧
    (runMasks b (2 ^ b) 0).countP (fun x => x.2) = 1 ∧
    maskState b (2 ^ b) 0 = 1 := by
  have hpow : 1 < 2 ^ b := Nat.one_lt_two_pow_iff.mpr (by omega)
  have hmax : max 1 (2 ^ b - 1) = 2 ^ b - 1 := Nat.max_eq_right (by omega)
  refine ⟨?_, ?_, ?_⟩
  · intro n x hx
    have h := runMasks_mem_bound b n 0 x hx
    rw [hmax] at h
    exact h
  · rw [runMasks_wrap_decomp b hb, List.countP_append, List.countP_map]
    simp [Function.comp_def, List.countP_cons]
  · have he : 2 ^ b = (2 ^ b - 1) + 1 := by omega
    rw [he, maskState_add, maskState_ramp b (2 ^ b - 1) 0 (by omega)]
    simp only [maskState, nextStencilMask]
    simp

theorem next_stencil_mask_C1_witness :
    ((∀ n, ∀ x ∈ runMasks 3 n 0, 1 ≤ x.1 ∧ x.1 ≤ 2 ^ 3 - 1) ∧
      (runMasks 3 (2 ^ 3) 0).countP (fun x => x.2) = 1 ∧
      maskState 3 (2 ^ 3) 0 = 1) ∧
    runMasks 3 (2 ^ 3) 0 =
      [(1, false), (2, false), (3, false), (4, false), (5, false), (6, false),
       (7, false), (1, true)] :=
  ⟨next_stencil_mask_C1 3 (by decide), by decide⟩

/-- C10: when the probed stencil bit depth is 0 (so `allow_stencil` is
`false`), every call of `SVG._next_stencil_mask` still returns 1 and clears
the stencil buffer on every single call, from any counter state, without
failing; and for any bit depth `b` the returned mask id never exceeds
`max 1 (2^b - 1)`. -/
theorem next_stencil_mask_C10 (cfg : SVGConfig) (n s : Nat)
    (h : cfg = SVGConfig.init 0) :
    cfg.allow_stencil = false ∧
    runMasks cfg.stencil_bits n s = List.replicate n (1, true) ∧
    (∀ b n' s', ∀ x ∈ runMasks b n' s', x.1 ≤ max 1 (2 ^ b - 1)) := by
  subst h
  refine ⟨by decide, runMasks_zero_bits n s, ?_⟩
  intro b n' s' x hx
  exact (runMasks_mem_bound b n' s' x hx).2

theorem next_stencil_mask_C10_witness :
    (SVGConfig.init 0).allow_stencil = false ∧
    runMasks (SVGConfig.init 0).stencil_bits 3 0 = List.replicate 3 (1, true) ∧
    (∀ b n' s', ∀ x ∈ runMasks b n' s', x.1 ≤ max 1 (2 ^ b - 1)) :=
  next_stencil_mask_C10 (SVGConfig.init 0) 3 0 rfl

/-- C6 (counterexample): `SVGConfig.super_detailed` does not copy the
receiver.  For a config whose `bezier_points` was changed to 11 (in an
environment reporting 8 stencil bits both times), the result's
`bezier_points` is 100 — the *default* 10 times 10 — and not 110, the
receiver's value times 10 as the claim requires. -/
theorem super_detailed_C6_counterexample :
    (SVGConfig.super_detailed { SVGConfig.init 8 with bezier_points := 11 } 8).bezier_points
        = 100 ∧
    ¬ ((SVGConfig.super_detailed { SVGConfig.init 8 with bezier_points := 11 } 8).bezier_points
        = ({ SVGConfig.init 8 with bezier_points := 11 } : SVGConfig).bezier_points * 10) := by
  constructor
  · rfl
  · decide

/-- C6 (amended): `super_detailed` returns a *fresh default-constructed*
config — it ignores every field of the receiver `c`, re-probing the stencil
bits — whose `bezier_points` and `circle_points` are the defaults times 10
and whose `tolerance` is the default divided by 100; `c` itself is left
unchanged (the method never writes to `self`, and the embedding is a pure
function of `c`). -/
theorem super_detailed_C6 (c : SVGConfig) (glStencilBits : Nat) :
    SVGConfig.super_detailed c glStencilBits
        = SVGConfig.super_detailed (SVGConfig.init glStencilBits) glStencilBits ∧
    (SVGConfig.super_detailed c glStencilBits).bezier_points = BEZIER_POINTS * 10 ∧
    (SVGConfig.super_detailed c glStencilBits).circle_points = CIRCLE_POINTS * 10 ∧
    (SVGConfig.super_detailed c glStencilBits).tolerance = TOLERANCE / 100 ∧
    (SVGConfig.super_detailed c glStencilBits).stencil_bits = glStencilBits ∧
    (SVGConfig.super_detailed c glStencilBits).has_framebuffer_objects = true ∧
    (SVGConfig.super_detailed c glStencilBits).allow_stencil = decide (glStencilBits > 0) :=
  ⟨rfl, rfl, rfl, rfl, rfl, rfl, rfl⟩

theorem render_eq_filter (ps : List SVGPathM) :
    render ps = ps.filter (fun p => !p.is_pattern && !p.is_pattern_part) := by
  induction ps with
  | nil => rfl
  | cons p ps ih => simp only [render, List.filter_cons, ih]

/-- C4: the main render pass of `SVG.render` invokes `svg_path.render()` on
exactly those registered paths whose `is_pattern` and `is_pattern_part`
flags are both false, in registration (document) order — the rendered
sequence is the flag-filtered path list and a sublist of `self._paths` —
and every path with either flag set is skipped. -/
theorem render_C4 (ps : List SVGPathM) :
    render ps = ps.filter (fun p => !p.is_pattern && !p.is_pattern_part) ∧
    (render ps).Sublist ps ∧
    (∀ p ∈ render ps, p ∈ ps ∧ p.is_pattern = false ∧ p.is_pattern_part = false) ∧
    (∀ p ∈ ps, p.is_pattern = false → p.is_pattern_part = false → p ∈ render ps) := by
  refine ⟨render_eq_filter ps, ?_, ?_, ?_⟩
  · rw [render_eq_filter]
    exact List.filter_sublist ps
  · intro p hp
    rw [render_eq_filter] at hp
    obtain ⟨hmem, hcond⟩ := List.mem_filter.mp hp
    simp only [Bool.and_eq_true, Bool.not_eq_true'] at hcond
    exact ⟨hmem, hcond.1, hcond.2⟩
  · intro p hp h1 h2
    rw [render_eq_filter]
    exact List.mem_filter.mpr ⟨hp, by simp [h1, h2]⟩

theorem render_C4_witness :
    (render [⟨"a", true, false⟩, ⟨"b", false, false⟩, ⟨"c", false, true⟩]
        = [⟨"a", true, false⟩, ⟨"b", false, false⟩,
           ⟨"c", false, true⟩].filter (fun p => !p.is_pattern && !p.is_pattern_part) ∧
      (render [⟨"a", true, false⟩, ⟨"b", false, false⟩, ⟨"c", false, true⟩]).Sublist
        [⟨"a", true, false⟩, ⟨"b", false, false⟩, ⟨"c", false, true⟩] ∧
      (∀ p ∈ render [⟨"a", true, false⟩, ⟨"b", false, false⟩, ⟨"c", false, true⟩],
        p ∈ [⟨"a", true, false⟩, ⟨"b", false, false⟩, ⟨"c", false, true⟩] ∧
          p.is_pattern = false ∧ p.is_pattern_part = false) ∧
      (∀ p ∈ [⟨"a", true, false⟩, ⟨"b", false, false⟩, ⟨"c", false, true⟩],
        p.is_pattern = false → p.is_pattern_part = false →
          p ∈ render [⟨"a", true, false⟩, ⟨"b", false, false⟩, ⟨"c", false, true⟩])) ∧
    render [⟨"a", true, false⟩, ⟨"b", false, false⟩, ⟨"c", false, true⟩]
        = [⟨"b", false, false⟩] :=
  ⟨render_C4 [⟨"a", true, false⟩, ⟨"b", false, false⟩, ⟨"c", false, true⟩], rfl⟩

/-- C5: the anchor setters resolve the symbolic keywords against the
document dimensions (`left ↦ 0`, `center ↦ width/2`, `right ↦ width`;
`bottom ↦ 0`, `center ↦ height/2`, `top ↦ height`), and any non-keyword
value is stored as the literal resolved offset. -/
theorem anchor_C5 (doc : AnchorState) (v : PyVal)
    (h1 : v ≠ .str "left") (h2 : v ≠ .str "center") (h3 : v ≠ .str "right")
    (h4 : v ≠ .str "bottom") (h5 : v ≠ .str "top") :
    (_set_anchor_x doc (.str "left"))._a_x = .num 0 ∧
    (_set_anchor_x doc (.str "center"))._a_x = .num (doc.width / 2) ∧
    (_set_anchor_x doc (.str "right"))._a_x = .num doc.width ∧
    (_set_anchor_y doc (.str "bottom"))._a_y = .num 0 ∧
    (_set_anchor_y doc (.str "center"))._a_y = .num (doc.height / 2) ∧
    (_set_anchor_y doc (.str "top"))._a_y = .num doc.height ∧
    (_set_anchor_x doc v)._a_x = v ∧
    (_set_anchor_y doc v)._a_y = v := by
  refine ⟨rfl, congrArg PyVal.num (mul_one_div _ _), rfl, rfl,
    congrArg PyVal.num (mul_one_div _ _), rfl, ?_, ?_⟩
  · simp [_set_anchor_x, h1, h2, h3]
  · simp [_set_anchor_y, _get_anchor_y, h4, h2, h5]

theorem anchor_C5_witness :
    (_set_anchor_x sampleAnchorState (.str "left"))._a_x = .num 0 ∧
    (_set_anchor_x sampleAnchorState (.str "center"))._a_x
        = .num (sampleAnchorState.width / 2) ∧
    (_set_anchor_x sampleAnchorState (.str "right"))._a_x = .num sampleAnchorState.width ∧
    (_set_anchor_y sampleAnchorState (.str "bottom"))._a_y = .num 0 ∧
    (_set_anchor_y sampleAnchorState (.str "center"))._a_y
        = .num (sampleAnchorState.height / 2) ∧
    (_set_anchor_y sampleAnchorState (.str "top"))._a_y = .num sampleAnchorState.height ∧
    (_set_anchor_x sampleAnchorState (.num 7))._a_x = .num 7 ∧
    (_set_anchor_y sampleAnchorState (.num 7))._a_y = .num 7 :=
  anchor_C5 sampleAnchorState (.num 7)
    (by decide) (by decide) (by decide) (by decide) (by decide)

/-- C9: anchor assignment round-trips: after setting `anchor_x` (resp.
`anchor_y`) to any value `v`, the property getter returns exactly `v` — a
keyword is stored as the keyword, not replaced by its resolved
coordinate. -/
theorem anchor_roundtrip_C9 (doc : AnchorState) (v : PyVal) :
    _get_anchor_x (_set_anchor_x doc v) = v ∧ _get_anchor_y (_set_anchor_y doc v) = v := by
  constructor
  · simp only [_set_anchor_x, _get_anchor_x]
    split_ifs <;> rfl
  · simp only [_set_anchor_y, _get_anchor_y]
    split_ifs <;> rfl

theorem dictGet_eq_none_iff (d : List (String × SVGPathM)) (k : String) :
    dictGet d k = none ↔ k ∉ d.map Prod.fst := by
  induction d with
  | nil => simp [dictGet]
  | cons kv rest ih =>
    simp only [dictGet, List.map_cons, List.mem_cons]
    by_cases h : kv.1 = k
    · simp [h]
    · simp only [if_neg h, ih]
      constructor
      · intro hk
        rintro (rfl | hmem)
        · exact h rfl
        · exact hk hmem
      · intro hk hmem
        exact hk (Or.inr hmem)

theorem dictGet_mem (d : List (String × SVGPathM)) (k : String) (p : SVGPathM)
    (h : dictGet d k = some p) : (k, p) ∈ d := by
  induction d with
  | nil => simp [dictGet] at h
  | cons kv rest ih =>
    cases kv with
    | mk a b =>
      simp only [dictGet] at h
      by_cases hk : a = k
      · rw [if_pos hk] at h
        injection h with h
        subst hk h
        exact List.mem_cons_self _ _
      · rw [if_neg hk] at h
        exact List.mem_cons_of_mem _ (ih h)

/-- C7: `get_path_by_id` fails (raises `KeyError`, modelled as
`Except.error`) exactly on the ids absent from `get_path_ids()`, and for
every id in `get_path_ids()` it returns the path registered in
`path_lookup` under that id. -/
theorem get_path_by_id_C7 (st : DocState) (i : String) :
    (i ∉ get_path_ids st → ∃ msg, get_path_by_id st i = .error msg) ∧
    (i ∈ get_path_ids st → ∃ p, get_path_by_id st i = .ok p ∧ (i, p) ∈ st.path_lookup) := by
  constructor
  · intro hmem
    refine ⟨"KeyError: " ++ i, ?_⟩
    unfold get_path_by_id
    rw [(dictGet_eq_none_iff st.path_lookup i).mpr hmem]
  · intro hmem
    unfold get_path_by_id
    cases hd : dictGet st.path_lookup i with
    | none => exact absurd hmem ((dictGet_eq_none_iff st.path_lookup i).mp hd)
    | some p => exact ⟨p, rfl, dictGet_mem st.path_lookup i p hd⟩

theorem get_path_by_id_C7_witness :
    (∃ msg, get_path_by_id sampleDocState "b" = .error msg) ∧
    (∃ p, get_path_by_id sampleDocState "a" = .ok p ∧ ("a", p) ∈ sampleDocState.path_lookup) :=
  ⟨(get_path_by_id_C7 sampleDocState "b").1 (by decide),
   (get_path_by_id_C7 sampleDocState "a").2 (by decide)⟩

mutual

theorem parseElement_ok_iff (st : DocState) (e : PElem) :
    (parseElement st e).isOk = true ↔ elemFails e = false := by
  cases e with
  | node tag pid fails children =>
    cases fails with
    | true => simp [parseElement, elemFails, Except.isOk, Except.toBool]
    | false =>
      simp only [parseElement, elemFails, Bool.false_or, Bool.false_eq_true, if_false]
      exact parseChildren_ok_iff _ children

theorem parseChildren_ok_iff (st : DocState) (es : PElemList) :
    (parseChildren st es).isOk = true ↔ elemsFail es = false := by
  cases es with
  | nil => simp [parseChildren, elemsFail, Except.isOk, Except.toBool]
  | cons c cs =>
    simp only [parseChildren, elemsFail]
    cases hc : parseElement st c with
    | error msg =>
      have h1 := parseElement_ok_iff st c
      rw [hc] at h1
      simp only [Except.isOk, Except.toBool, Bool.false_eq_true, false_iff] at h1
      simp only [Except.isOk, Except.toBool, Bool.false_eq_true, false_iff,
        Bool.or_eq_false_iff]
      intro h2
      exact absurd h2.1 h1
    | ok st2 =>
      have h1 := parseElement_ok_iff st c
      rw [hc] at h1
      simp only [Except.isOk, Except.toBool, true_iff] at h1
      rw [h1, Bool.false_or]
      exact parseChildren_ok_iff st2 cs

end

/-- C3 (counterexample): a document whose first element raises and whose
second element is a well-formed path does *not* complete its load — the
exception is printed and then re-raised by both `except` clauses, so
`_parse_doc` propagates it instead of continuing; had the failing element
been absent, the well-formed path would have been registered. -/
theorem parse_doc_C3_counterexample :
    parseDocElems (.cons (.node "path" "bad" true .nil)
        (.cons (.node "path" "good" false .nil) .nil))
      = .error "Exception while parsing element bad" ∧
    parseDocElems (.cons (.node "path" "good" false .nil) .nil)
      = .ok ⟨[⟨"good", false, false⟩], [("good", ⟨"good", false, false⟩)]⟩ :=
  ⟨rfl, rfl⟩

/-- C3 (amended): element-level exceptions in `_parse_doc`/`_parse_element`
are logged and then *re-raised*, so one bad element aborts the whole
document parse: the element loop of `_parse_doc` completes successfully if
and only if no element (and no descendant of an element) fails to parse. -/
theorem parse_doc_C3 (es : PElemList) :
    (parseDocElems es).isOk = true ↔ elemsFail es = false :=
  parseChildren_ok_iff ⟨[], []⟩ es

/-- C2: whenever the root carries a `viewBox` attribute that splits into
exactly four tokens `x y w h`, the document's parsed width is the parsed
value of `w` and its height the parsed value of `h`, whatever literal
`width`/`height` attribute strings are also present. -/
theorem parse_doc_C2 (root : RootAttrs) (vb xs ys ws hs : String)
    (hvb : root.viewBox = some vb)
    (hlist : parseList vb = [xs, ys, ws, hs]) :
    parseDocDims root = .ok (parseFloat ws, parseFloat hs) := by
  have hne : vb ≠ "" := by
    intro h
    rw [h] at hlist
    simp [parseList, parseListAux] at hlist
  simp only [parseDocDims, hvb, hne, hlist, List.map_cons, List.map_nil, if_false,
    ite_false]

theorem parse_doc_C2_witness :
    parseDocDims ⟨some "999", some "888", some "0 0 100 50"⟩
        = .ok (parseFloat "100", parseFloat "50") ∧
    parseDocDims ⟨some "999", some "888", some "0 0 100 50"⟩ = .ok (100, 50) :=
  ⟨parse_doc_C2 ⟨some "999", some "888", some "0 0 100 50"⟩
      "0 0 100 50" "0" "0" "100" "50" rfl rfl,
   rfl⟩

theorem pyReplaceCm_cons_of_ne (c : Char) (l : List Char) (hc : c ≠ 'c') :
    pyReplaceCm (c :: l) = c :: pyReplaceCm l := by
  rw [pyReplaceCm.eq_def]
  split
  · rename_i heq; injection heq
  · rename_i heq
    injection heq with h2 h3
    exact absurd h2 hc
  · rename_i heq
    injection heq with h2 h3
    subst h2 h3
    rfl

theorem containsCm_append_cm (l : List Char) : containsCm (l ++ ['c', 'm']) = true := by
  induction l with
  | nil => rfl
  | cons c rest ih =>
    rw [List.cons_append, containsCm.eq_def]
    split
    · rename_i heq; injection heq
    · rfl
    · rename_i heq
      injection heq with h2 h3
      subst h3
      exact ih

theorem pyReplaceCm_digits (ds : List Char) (h : ∀ c ∈ ds, c.isDigit = true) :
    pyReplaceCm (ds ++ ['c', 'm']) = ds ++ ['0'] := by
  induction ds with
  | nil => rfl
  | cons c cs ih =>
    have hc : c ≠ 'c' := by
      intro hcc
      have hd := h c (List.mem_cons_self c cs)
      rw [hcc] at hd
      exact absurd hd (by decide)
    rw [List.cons_append, pyReplaceCm_cons_of_ne c _ hc,
      ih (fun x hx => h x (List.mem_cons_of_mem c hx)), List.cons_append]

theorem parseUnsigned_digits (ds : List Char) (h : ∀ c ∈ ds, c.isDigit = true) :
    parseUnsigned ds = (parseDigits ds : Rat) := by
  simp only [parseUnsigned]
  rw [List.takeWhile_eq_self_iff.mpr h, List.dropWhile_eq_nil_iff.mpr h]

theorem parseDigits_append_zero (ds : List Char) :
    parseDigits (ds ++ ['0']) = parseDigits ds * 10 := by
  simp [parseDigits, List.foldl_append]

theorem parseFloat_digits (ds : List Char) (h : ∀ c ∈ ds, c.isDigit = true) :
    parseFloat (String.mk ds) = (parseDigits ds : Rat) := by
  have htl : (String.mk ds).toList = ds := rfl
  unfold parseFloat
  rw [htl]
  have hhead : ¬ ds.head? = some '-' := by
    cases ds with
    | nil => simp
    | cons c cs =>
      simp only [List.head?]
      intro hc
      injection hc with hc
      subst hc
      exact absurd (h '-' (List.mem_cons_self _ _)) (by decide)
  rw [if_neg hhead]
  exact parseUnsigned_digits ds h

theorem neutralize_parse_cm (ds : List Char) (hds : ∀ c ∈ ds, c.isDigit = true) :
    parseFloat (neutralizeCm (String.mk (ds ++ ['c', 'm'])))
      = (parseDigits ds : Rat) * 10 := by
  have htl : (String.mk (ds ++ ['c', 'm'])).toList = ds ++ ['c', 'm'] := rfl
  unfold neutralizeCm
  rw [htl, containsCm_append_cm ds]
  simp only [if_true]
  rw [pyReplaceCm_digits ds hds]
  have hall : ∀ c ∈ ds ++ ['0'], c.isDigit = true := by
    intro c hc
    rcases List.mem_append.mp hc with h | h
    · exact hds c h
    · simp only [List.mem_singleton] at h
      subst h
      decide
  rw [parseFloat_digits (ds ++ ['0']) hall, parseDigits_append_zero]
  push_cast
  ring

/-- C8 (counterexample): with `width="5cm"` the parsed width is 50, not the
literal number 5: the `cm` suffix is replaced by the digit `0`, which
appends a zero to the numeral instead of leaving its value unchanged. -/
theorem parse_doc_C8_counterexample :
    parseDocDims ⟨some "5cm", some "7", none⟩ = .ok (50, 7) ∧ (50 : Rat) ≠ 5 :=
  ⟨rfl, by decide⟩

/-- C8 (amended): for a root `width` or `height` attribute consisting of an
integer numeral `N` followed by `cm`, the suffix is *replaced by the digit
`0`* (no unit conversion is applied), so the parsed dimension is the
numeral with a zero appended — i.e. `10·N` — rather than the literal
number `N`. -/
theorem parse_doc_C8 (root : RootAttrs) (ds es : List Char)
    (hds : ∀ c ∈ ds, c.isDigit = true) (hes : ∀ c ∈ es, c.isDigit = true)
    (hw : root.width = some (String.mk (ds ++ ['c', 'm'])))
    (hh : root.height = some (String.mk (es ++ ['c', 'm'])))
    (hvb : root.viewBox = none) :
    parseDocDims root
      = .ok ((parseDigits ds : Rat) * 10, (parseDigits es : Rat) * 10) := by
  simp only [parseDocDims, hw, hh, hvb, Option.getD_some]
  rw [neutralize_parse_cm ds hds, neutralize_parse_cm es hes]

theorem parse_doc_C8_witness :
    parseDocDims ⟨some (String.mk ['5', 'c', 'm']), some (String.mk ['7', 'c', 'm']), none⟩
        = .ok ((parseDigits ['5'] : Rat) * 10, (parseDigits ['7'] : Rat) * 10) :=
  parse_doc_C8 ⟨some (String.mk ['5', 'c', 'm']), some (String.mk ['7', 'c', 'm']), none⟩
    ['5'] ['7'] (by decide) (by decide) rfl rfl rfl

end Glsvg
